import Mathlib

/-!
# Verification of the time-tracker session core

Shallow embedding of the rule-matching engine (`tt_rules.py`) and the
session state machine (`tt_sessions.py`) of the time-tracker repository.

Modelling conventions:
* Python `datetime` instants are modelled as rational numbers of seconds
  (`ℚ`); `timedelta.total_seconds()` is subtraction in `ℚ`.
* Python `str.lower` is modelled on its ASCII fragment (`pyLower`).
* Python's built-in `round` (banker's rounding, half to even) is `pyRound`.
* Python's `re` module is modelled on the fragment of patterns built from
  ordinary characters and the `.` wildcard (`reCompile`/`reSearch`); every
  pattern containing another metacharacter is treated as failing to
  compile, and a failed compile models `re.error`.
* The sqlite session log is modelled as the list of inserted records, in
  insertion order; `format_utc_timestamp` is abstracted to the identity on
  instants (it only changes the representation of a timestamp).
-/

/-- Models Python `str.lower` on a single ASCII character. -/
def lowerChar (c : Char) : Char :=
  if 'A' ≤ c ∧ c ≤ 'Z' then Char.ofNat (c.toNat + 32) else c

/-- Models Python `str.lower` (ASCII fragment). -/
def pyLower (s : String) : String :=
  ⟨s.data.map lowerChar⟩

/-- Models Python's `needle in haystack` substring test on strings. -/
def pyIn (needle haystack : String) : Bool :=
  (List.range (haystack.data.length + 1)).any fun i =>
    needle.data.isPrefixOf (haystack.data.drop i)

/-- Models Python `haystack.startswith(needle)`. -/
def pyStartswith (haystack needle : String) : Bool :=
  needle.data.isPrefixOf haystack.data

/-- Models Python `round` on one argument: round half to even. -/
def pyRound (q : ℚ) : ℤ :=
  let f := ⌊q⌋
  let r := q - f
  if r < 1/2 then f
  else if 1/2 < r then f + 1
  else if 2 ∣ f then f else f + 1

/-! ## Model of Python's `re` module (restricted fragment)

`reCompile` models `re.compile` on patterns built from ordinary characters
and the `.` wildcard.  Any pattern containing one of the metacharacters
below is treated as raising `re.error`; this is exact for genuinely
malformed patterns such as `"("` or `"*"`, while patterns that use other
valid regex features are outside the modelled fragment. -/

/-- One compiled pattern token: a literal character or the `.` wildcard. -/
inductive ReTok where
  | lit (c : Char)
  | dot
deriving DecidableEq, Repr

/-- Characters that are regex metacharacters (other than `.`); a pattern
containing one of them is outside the modelled fragment and treated as
failing to compile. -/
def reSpecial (c : Char) : Bool :=
  c = '(' || c = ')' || c = '*' || c = '+' || c = '?' || c = '[' ||
  c = ']' || c = '\\' || c = '|' || c = '^' || c = '$' ||
  c = '\x7b' || c = '\x7d'

/-- Models `re.compile`: `none` models `re.error` being raised. -/
def reCompile (pattern : String) : Option (List ReTok) :=
  go pattern.data
where
  go : List Char → Option (List ReTok)
    | [] => some []
    | c :: rest =>
      if reSpecial c then none
      else if c = '.' then (go rest).map (ReTok.dot :: ·)
      else (go rest).map (ReTok.lit c :: ·)

/-- Whether the compiled token sequence matches at the head of `cs`
(Python `.` does not match a newline). -/
def reMatchHere : List ReTok → List Char → Bool
  | [], _ => true
  | _ :: _, [] => false
  | ReTok.lit c :: ts, x :: xs => x = c && reMatchHere ts xs
  | ReTok.dot :: ts, x :: xs => x ≠ '\n' && reMatchHere ts xs

/-- Models `re.search(compiled, haystack) is not None`: the tokens match at
some position of the haystack. -/
def reSearch (toks : List ReTok) (haystack : String) : Bool :=
  (List.range (haystack.data.length + 1)).any fun i =>
    reMatchHere toks (haystack.data.drop i)

/-! ## Data model (`tt_models.py`, `tt_rules.py`) -/

/-- `Activity` from `tt_models.py`; all descriptive fields optional. -/
structure Activity where
  timestamp : ℚ
  app_name : Option String
  bundle_id : Option String
  window_title : Option String
  file_path : Option String
  url : Option String
  idle : Bool
deriving DecidableEq, Repr

/-- `Rule` from `tt_rules.py`. -/
structure Rule where
  id : ℤ
  project_id : ℤ
  rule_type : String
  rule_value : String
  rule_group : ℤ
  enabled : Bool
deriving DecidableEq, Repr

/-- `ProjectRules` from `tt_rules.py`. -/
structure ProjectRules where
  id : ℤ
  name : String
  rules : List Rule
deriving DecidableEq, Repr

/-- `MatchResult` from `tt_rules.py`. -/
structure MatchResult where
  project_id : ℤ
  triggered_by : String
deriving DecidableEq, Repr

/-- `RULE_TYPES` from `tt_rules.py`. -/
def RULE_TYPES : List String :=
  ["app", "app_contains", "window_contains", "window_regex",
   "path_prefix", "path_contains", "url_contains", "url_regex"]

/-- `_norm` from `tt_rules.py`: lower-case a value when it is a string. -/
def normStr (value : Option String) : Option String :=
  value.map pyLower

/-- `_contains` from `tt_rules.py`. -/
def strContains (haystack : Option String) (needle : String) : Bool :=
  match haystack with
  | none => false
  | some h => pyIn (pyLower needle) (pyLower h)

/-- `_prefix` from `tt_rules.py`. -/
def strPrefix (haystack : Option String) (needle : String) : Bool :=
  match haystack with
  | none => false
  | some h => pyStartswith (pyLower h) (pyLower needle)

/-- `_regex_search` from `tt_rules.py`: `None` haystack never matches, a
pattern that fails to compile (`re.error`) never matches. -/
def regexSearch (haystack : Option String) (pattern : String) : Bool :=
  match haystack with
  | none => false
  | some h =>
    match reCompile pattern with
    | none => false
    | some toks => reSearch toks h

/-- `rule_matches` from `tt_rules.py`. -/
def rule_matches (activity : Activity) (rule : Rule) : Bool :=
  if ¬ RULE_TYPES.contains rule.rule_type then false
  else
    let value := rule.rule_value
    if rule.rule_type = "app" then
      if activity.app_name = none ∧ activity.bundle_id = none then false
      else
        normStr activity.app_name == some (pyLower value) ||
        normStr activity.bundle_id == some (pyLower value)
    else if rule.rule_type = "app_contains" then
      strContains activity.app_name value
    else if rule.rule_type = "window_contains" then
      strContains activity.window_title value
    else if rule.rule_type = "window_regex" then
      regexSearch activity.window_title value
    else if rule.rule_type = "path_prefix" then
      strPrefix activity.file_path value
    else if rule.rule_type = "path_contains" then
      strContains activity.file_path value
    else if rule.rule_type = "url_contains" then
      strContains activity.url value
    else if rule.rule_type = "url_regex" then
      regexSearch activity.url value
    else false

/-! ## Rule engine `match` (`tt_rules.py`, `RuleEngine.match`) -/

/-- Stable insertion by an integer key (models Python's stable `sorted`). -/
def insertByKey (key : α → ℤ) (x : α) : List α → List α
  | [] => [x]
  | y :: ys => if key x ≤ key y then x :: y :: ys else y :: insertByKey key x ys

/-- Stable sort by an integer key (models Python's `sorted(..., key=...)`). -/
def sortByKey (key : α → ℤ) : List α → List α
  | [] => []
  | x :: xs => insertByKey key x (sortByKey key xs)

/-- The description string for an ungrouped rule match:
`f"{rule.rule_type}: {rule.rule_value}"`. -/
def ruleDescription (r : Rule) : String :=
  r.rule_type ++ ": " ++ r.rule_value

/-- The description string for a group match:
`f"group {group_id}: " + " AND ".join(parts)`. -/
def groupDescription (groupId : ℤ) (rs : List Rule) : String :=
  "group " ++ toString groupId ++ ": " ++
    String.intercalate " AND " (rs.map fun r => r.rule_type ++ ":" ++ r.rule_value)

/-- The distinct group ids of a rule list in ascending order: models
collecting the keys of the insertion-ordered dict and applying `sorted`. -/
def sortedGroupIds (grouped : List Rule) : List ℤ :=
  sortByKey id ((grouped.map Rule.rule_group).eraseDups)

/-- The body of `RuleEngine.match` for one project of the snapshot. -/
def matchProject (activity : Activity) (project : ProjectRules) : Option MatchResult :=
  let ungrouped := project.rules.filter fun r => r.rule_group = 0
  let grouped := project.rules.filter fun r => r.rule_group ≠ 0
  match (sortByKey Rule.id ungrouped).find? (fun r => rule_matches activity r) with
  | some r => some ⟨project.id, ruleDescription r⟩
  | none =>
    (sortedGroupIds grouped).findSome? fun groupId =>
      let rulesInGroup := sortByKey Rule.id (grouped.filter fun r => r.rule_group = groupId)
      if rulesInGroup.all (fun r => rule_matches activity r) then
        some ⟨project.id, groupDescription groupId rulesInGroup⟩
      else none

/-- `RuleEngine.match` from `tt_rules.py`: first matching project over the
snapshot, in snapshot order (`reload` stores projects ordered by id). -/
def engineMatch (projects : List ProjectRules) (activity : Activity) : Option MatchResult :=
  projects.findSome? (matchProject activity)

/-! ## Session state machine (`tt_sessions.py`) -/

/-- The core fields of `Config` from `tt_db.py` (retention and display
settings are consumed by collaborators outside the session core). -/
structure Config where
  poll_interval : ℤ := 2
  idle_threshold : ℤ := 120
  idle_grace_period : ℤ := 300
  session_grace_period : ℤ := 120
  min_session_duration : ℤ := 60
  tracking_paused : ℤ := 0
deriving DecidableEq, Repr

/-- `SessionState` from `tt_sessions.py`. -/
structure SessionState where
  project_id : ℤ
  start_time : ℚ
  triggered_by : String
  duration_seconds : ℚ
  last_active_time : ℚ
  last_tracked_time : Option ℚ
deriving DecidableEq, Repr

/-- One row of the `sessions` table as inserted by `_end_session`
(timestamp formatting abstracted to the instant itself). -/
structure SessionRecord where
  project_id : ℤ
  start_time : ℚ
  end_time : ℚ
  duration : ℤ
  triggered_by : String
deriving DecidableEq, Repr

/-- The mutable state of a `SessionManager` together with the persisted
session log (rows of the `sessions` table, in insertion order). -/
structure SMState where
  current_session : Option SessionState
  log : List SessionRecord
deriving DecidableEq, Repr

/-- The state of a freshly constructed `SessionManager` over an empty
session log. -/
def SMState.init : SMState :=
  ⟨none, []⟩

/-- `SessionManager._end_session`. -/
def endSession (cfg : Config) (s : SMState) (end_time : ℚ) : SMState :=
  match s.current_session with
  | none => s
  | some sess =>
    let duration := pyRound sess.duration_seconds
    if duration < cfg.min_session_duration then
      { s with current_session := none }
    else
      { current_session := none,
        log := s.log ++
          [{ project_id := sess.project_id,
             start_time := sess.start_time,
             end_time := end_time,
             duration := duration,
             triggered_by := sess.triggered_by }] }

/-- The `SessionState` opened by `_handle_active` for a fresh match: both
`SessionState(...)` constructor calls in the source build exactly this. -/
def openedSession (m : MatchResult) (activity : Activity) : SessionState :=
  { project_id := m.project_id,
    start_time := activity.timestamp,
    triggered_by := m.triggered_by,
    duration_seconds := 0,
    last_active_time := activity.timestamp,
    last_tracked_time := some activity.timestamp }

/-- `SessionManager._handle_active`. -/
def handleActive (cfg : Config) (s : SMState) (activity : Activity)
    (m : MatchResult) : SMState :=
  match s.current_session with
  | none =>
    { s with current_session := some (openedSession m activity) }
  | some sess =>
    if sess.project_id ≠ m.project_id then
      -- Close previous session at last active time.
      let s := endSession cfg s sess.last_active_time
      { s with current_session := some (openedSession m activity) }
    else
      -- Same project: accumulate time between active samples.
      let duration :=
        match sess.last_tracked_time with
        | some t =>
          let delta := activity.timestamp - t
          if delta > 0 then sess.duration_seconds + delta else sess.duration_seconds
        | none => sess.duration_seconds
      let sess :=
        { sess with
          duration_seconds := duration,
          last_tracked_time := some activity.timestamp,
          last_active_time := activity.timestamp,
          triggered_by := m.triggered_by }
      { s with current_session := some sess }

/-- `SessionManager._handle_inactive`. -/
def handleInactive (cfg : Config) (s : SMState) (activity : Activity) : SMState :=
  match s.current_session with
  | none => s
  | some sess =>
    -- Pause duration accumulation during idle/non-match gaps.
    let sess := { sess with last_tracked_time := none }
    let s := { s with current_session := some sess }
    let grace := if activity.idle then cfg.idle_grace_period else cfg.session_grace_period
    let elapsed := activity.timestamp - sess.last_active_time
    if elapsed > (grace : ℚ) then
      let s := endSession cfg s sess.last_active_time
      { s with current_session := none }
    else s

/-- `SessionManager._match_activity`: an idle sample never matches. -/
def matchActivity (projects : List ProjectRules) (activity : Activity) :
    Option MatchResult :=
  if activity.idle then none else engineMatch projects activity

/-- `SessionManager.process_activity`; the rule snapshot of the manager's
`RuleEngine` is passed explicitly. -/
def processActivity (cfg : Config) (projects : List ProjectRules)
    (s : SMState) (activity : Activity) : SMState :=
  let m := if cfg.tracking_paused ≠ 0 then none else matchActivity projects activity
  match m with
  | none => handleInactive cfg s activity
  | some m => handleActive cfg s activity m

/-- `SessionManager.process_activity` with rule matching replaced by the
constant no-match function (the observational model of "skip rule
evaluation"): the paused check is kept, but `_match_activity` always
returns `None`. -/
def processActivityNoMatch (cfg : Config) (s : SMState) (activity : Activity) :
    SMState :=
  let m : Option MatchResult := if cfg.tracking_paused ≠ 0 then none else none
  match m with
  | none => handleInactive cfg s activity
  | some m => handleActive cfg s activity m

/-- `SessionManager.current_duration`. -/
def currentDuration (s : SMState) (now : ℚ) : Option ℤ :=
  match s.current_session with
  | none => none
  | some sess =>
    let duration := sess.duration_seconds
    let duration :=
      match sess.last_tracked_time with
      | some t =>
        let delta := now - t
        if delta > 0 then duration + delta else duration
      | none => duration
    some (pyRound duration)

/-- `SessionManager.pause`: Python's `end_time or ...last_active_time`
(a `datetime` is never falsy, so `or` only replaces `None`). -/
def pause (cfg : Config) (s : SMState) (end_time : Option ℚ) : SMState :=
  match s.current_session with
  | none => s
  | some sess =>
    let e := end_time.getD sess.last_active_time
    let s := endSession cfg s e
    { s with current_session := none }

/-- `SessionManager.shutdown`: `last_active_time` is a non-optional
`datetime` field of `SessionState`, so the two `end_time is None` branches
of the source are dead and the open session is always closed at its
`last_active_time`; the `now` argument is unused. -/
def shutdown (cfg : Config) (s : SMState) (_now : Option ℚ) : SMState :=
  match s.current_session with
  | none => s
  | some sess => endSession cfg s sess.last_active_time

/-- One externally driven operation on a `SessionManager`. -/
inductive Op where
  | process (activity : Activity)
  | pauseOp (end_time : Option ℚ)
  | shutdownOp (now : Option ℚ)
deriving Repr

/-- Apply one operation to the manager state. -/
def step (cfg : Config) (projects : List ProjectRules) (s : SMState) : Op → SMState
  | Op.process a => processActivity cfg projects s a
  | Op.pauseOp e => pause cfg s e
  | Op.shutdownOp n => shutdown cfg s n

/-- Run a sequence of operations from a state. -/
def run (cfg : Config) (projects : List ProjectRules) (s : SMState) :
    List Op → SMState
  | [] => s
  | op :: ops => run cfg projects (step cfg projects s op) ops

/-! ## Reference matching algorithm (spec, section 4.1)

`refMatch` renders the spec's matching algorithm: projects are scanned in
ascending project-id order; within a project the ungrouped rules are tried
in ascending rule-id order and the first match wins; only then are groups
tried in ascending group-id order, a group matching iff all of its rules
match, rules inside a group taken in ascending rule-id order. -/

/-- Reference per-project evaluation (spec steps 2-4). -/
def refMatchProject (activity : Activity) (project : ProjectRules) :
    Option MatchResult :=
  let ungrouped := project.rules.filter fun r => r.rule_group = 0
  let grouped := project.rules.filter fun r => r.rule_group ≠ 0
  match (sortByKey Rule.id ungrouped).find? (fun r => rule_matches activity r) with
  | some r => some ⟨project.id, ruleDescription r⟩
  | none =>
    (sortedGroupIds grouped).findSome? fun groupId =>
      let rulesInGroup := sortByKey Rule.id (grouped.filter fun r => r.rule_group = groupId)
      if rulesInGroup.all (fun r => rule_matches activity r) then
        some ⟨project.id, groupDescription groupId rulesInGroup⟩
      else none

/-- Reference algorithm (spec steps 1 and 5): scan projects in ascending
project-id order, no match when no project matches. -/
def refMatch (projects : List ProjectRules) (activity : Activity) :
    Option MatchResult :=
  (sortByKey ProjectRules.id projects).findSome? (refMatchProject activity)

/-! ## Concrete fixtures used by witnesses and counterexamples -/

/-- The rule snapshot of the test suite: one project with one
`app_contains Code` rule. -/
def sampleProjects : List ProjectRules :=
  [⟨1, "Test", [⟨1, 1, "app_contains", "Code", 0, true⟩]⟩]

/-- An activity sample whose app name is `Code`, at a given time. -/
def sampleActivity (t : ℚ) (idle : Bool) : Activity :=
  ⟨t, some "Code", none, none, none, none, idle⟩

/-- The configuration of the idle-grace scenario: `idle_grace_period = 5`,
adjustable `session_grace_period` and `min_session_duration`, tracking on. -/
def scenarioConfig (gs m : ℤ) : Config :=
  { idle_grace_period := 5, session_grace_period := gs,
    min_session_duration := m, tracking_paused := 0 }

/-- The four samples of the idle-grace scenario, starting at `t0`. -/
def scenarioOps (t0 : ℚ) : List Op :=
  [Op.process (sampleActivity t0 false),
   Op.process (sampleActivity (t0 + 2) false),
   Op.process (sampleActivity (t0 + 4) true),
   Op.process (sampleActivity (t0 + 14) true)]

/-- A configuration with tracking paused. -/
def pausedConfig : Config :=
  { tracking_paused := 1 }

/-- A configuration that persists every session (`min_session_duration = 0`). -/
def keepAllConfig : Config :=
  { min_session_duration := 0 }

/-- A manager state with an open session whose last active instant is 50
and whose accumulated duration is 100 seconds. -/
def openAt50State : SMState :=
  ⟨some ⟨1, 0, "app: X", 100, 50, none⟩, []⟩

/-- A manager state with an open session that accrued 10 seconds and was
last tracked at instant 5. -/
def accruingState : SMState :=
  ⟨some ⟨1, 0, "app: X", 10, 5, some 5⟩, []⟩

/-- A `window_regex` rule whose pattern is the lower-case literal `code`. -/
def lowerRegexRule : Rule :=
  ⟨1, 1, "window_regex", "code", 0, true⟩

/-- An activity whose window title is the lower-case `code`. -/
def lowerTitleActivity : Activity :=
  ⟨0, none, none, some "code", none, none, false⟩

/-- The same activity with the window title's case changed to `CODE`. -/
def upperTitleActivity : Activity :=
  ⟨0, none, none, some "CODE", none, none, false⟩

/-- An activity whose window title is present and is `Notes`. -/
def notesTitleActivity : Activity :=
  ⟨0, none, none, some "Notes", none, none, false⟩

/-- An activity with every descriptive field absent. -/
def emptyActivity : Activity :=
  ⟨0, none, none, none, none, none, false⟩

/-- A state with an open session for project 2. -/
def project2State : SMState :=
  ⟨some ⟨2, 0, "app: Y", 7, 3, some 3⟩, []⟩

/-- The default configuration (`min_session_duration = 60`). -/
def defaultConfig : Config :=
  {}

/-! ## Helper lemmas -/

/-- The log produced by `_end_session`: unchanged unless a session is open
and its rounded duration reaches the threshold. -/
theorem endSession_log (cfg : Config) (s : SMState) (e : ℚ) :
    (endSession cfg s e).log = s.log ++
      (match s.current_session with
       | none => []
       | some sess =>
         if pyRound sess.duration_seconds < cfg.min_session_duration then []
         else [{ project_id := sess.project_id, start_time := sess.start_time,
                 end_time := e, duration := pyRound sess.duration_seconds,
                 triggered_by := sess.triggered_by }]) := by
  unfold endSession
  cases s.current_session with
  | none => simp
  | some sess =>
    by_cases h : pyRound sess.duration_seconds < cfg.min_session_duration <;>
      simp [h]

/-- After `_end_session` the open-session slot is cleared (when a session
was open). -/
theorem endSession_current (cfg : Config) (s : SMState) (e : ℚ) (sess : SessionState)
    (hs : s.current_session = some sess) :
    (endSession cfg s e).current_session = none := by
  unfold endSession
  rw [hs]
  by_cases h : pyRound sess.duration_seconds < cfg.min_session_duration <;> simp [h]

/-- Python `round` of a nonnegative number is nonnegative. -/
theorem pyRound_nonneg (q : ℚ) (h : 0 ≤ q) : 0 ≤ pyRound q := by
  have hf : (0 : ℤ) ≤ ⌊q⌋ := Int.floor_nonneg.mpr h
  unfold pyRound
  dsimp only
  split
  · exact hf
  · split
    · omega
    · split <;> omega

/-! ## C8: paused tracking is observationally no-match -/

/-- C8: when `tracking_paused` is set, `process_activity` produces exactly
the same state and persisted records as the variant in which rule matching
is replaced by the constant no-match function. -/
theorem processActivity_paused_eq_noMatch (cfg : Config)
    (projects : List ProjectRules) (s : SMState) (a : Activity)
    (h : cfg.tracking_paused ≠ 0) :
    processActivity cfg projects s a = processActivityNoMatch cfg s a := by
  simp [processActivity, processActivityNoMatch, h]

/-- Witness for C8 at a paused configuration and a concrete sample. -/
theorem processActivity_paused_eq_noMatch_witness :
    pausedConfig.tracking_paused ≠ 0 ∧
    processActivity pausedConfig sampleProjects SMState.init (sampleActivity 0 false) =
      processActivityNoMatch pausedConfig SMState.init (sampleActivity 0 false) :=
  ⟨by decide,
   processActivity_paused_eq_noMatch pausedConfig sampleProjects SMState.init
     (sampleActivity 0 false) (by decide)⟩

/-! ## C10: `shutdown` closes at `last_active_time`, ignoring `now` -/

/-- C10: `shutdown` finalizes an open session at the session's
`last_active_time`; since `last_active_time` is a non-optional field of
`SessionState`, the `now` argument never influences the persisted record,
and `shutdown` with no open session is a no-op. -/
theorem shutdown_ends_at_last_active :
    (∀ (cfg : Config) (s : SMState) (now now₂ : Option ℚ),
       shutdown cfg s now = shutdown cfg s now₂) ∧
    (∀ (cfg : Config) (s : SMState) (sess : SessionState) (now : Option ℚ),
       s.current_session = some sess →
       shutdown cfg s now = endSession cfg s sess.last_active_time) ∧
    (∀ (cfg : Config) (s : SMState) (now : Option ℚ),
       s.current_session = none → shutdown cfg s now = s) := by
  refine ⟨fun cfg s now now₂ => rfl, fun cfg s sess now hs => ?_, fun cfg s now hs => ?_⟩
  · simp [shutdown, hs]
  · simp [shutdown, hs]

/-- Witness for C10 on a concrete open session and a concrete empty state. -/
theorem shutdown_ends_at_last_active_witness :
    shutdown keepAllConfig openAt50State (some 1000) =
      endSession keepAllConfig openAt50State 50 ∧
    shutdown keepAllConfig SMState.init (some 1000) = SMState.init :=
  ⟨shutdown_ends_at_last_active.2.1 keepAllConfig openAt50State _ (some 1000) rfl,
   shutdown_ends_at_last_active.2.2 keepAllConfig SMState.init (some 1000) rfl⟩

/-- Clearing an already-empty open-session slot changes nothing. -/
theorem clearCurrent_of_none {s : SMState} (h : s.current_session = none) :
    { s with current_session := none } = s := by
  cases s
  simp_all

/-! ## C7: `pause` (corrected) -/

/-- C7 as stated is false: `pause` takes an optional `end_time`, and a call
with an explicit `end_time` finalizes the session at that instant, not at
the session's last active timestamp (the daemon's PAUSE command passes the
current wall-clock time). -/
theorem pause_counterexample :
    openAt50State.current_session =
      some ⟨1, 0, "app: X", 100, 50, none⟩ ∧
    (pause keepAllConfig openAt50State (some 150)).log =
      [{ project_id := 1, start_time := 0, end_time := 150, duration := 100,
         triggered_by := "app: X" }] ∧
    (150 : ℚ) ≠ 50 := by
  have h100 : pyRound 100 = 100 := by norm_num [pyRound]
  refine ⟨rfl, ?_, by norm_num⟩
  simp [pause, openAt50State, keepAllConfig, endSession, h100]

/-- C7 (amended): `pause` with no explicit `end_time` finalizes the open
session at the session's last active timestamp even though no further
sample is delivered, and afterwards no session is open; `pause` with an
explicit `end_time` finalizes at that instant instead; `pause` with no
open session is a no-op. -/
theorem pause_ends_at_last_active :
    (∀ (cfg : Config) (s : SMState) (sess : SessionState),
       s.current_session = some sess →
       pause cfg s none = endSession cfg s sess.last_active_time ∧
       (pause cfg s none).current_session = none) ∧
    (∀ (cfg : Config) (s : SMState) (sess : SessionState) (e : ℚ),
       s.current_session = some sess →
       pause cfg s (some e) = endSession cfg s e) ∧
    (∀ (cfg : Config) (s : SMState) (e : Option ℚ),
       s.current_session = none → pause cfg s e = s) := by
  have key : ∀ (cfg : Config) (s : SMState) (sess : SessionState) (e : Option ℚ),
      s.current_session = some sess →
      pause cfg s e = endSession cfg s (e.getD sess.last_active_time) := by
    intro cfg s sess e hs
    have hc := endSession_current cfg s (e.getD sess.last_active_time) sess hs
    simp only [pause, hs]
    exact clearCurrent_of_none hc
  refine ⟨fun cfg s sess hs => ⟨key cfg s sess none hs, ?_⟩,
          fun cfg s sess e hs => key cfg s sess (some e) hs,
          fun cfg s e hs => by simp [pause, hs]⟩
  rw [key cfg s sess none hs]
  exact endSession_current cfg s _ sess hs

/-- Witness for C7 (amended) on a concrete open session. -/
theorem pause_ends_at_last_active_witness :
    pause keepAllConfig openAt50State none = endSession keepAllConfig openAt50State 50 ∧
    pause keepAllConfig SMState.init none = SMState.init :=
  ⟨(pause_ends_at_last_active.1 keepAllConfig openAt50State
      ⟨1, 0, "app: X", 100, 50, none⟩ rfl).1,
   pause_ends_at_last_active.2.2 keepAllConfig SMState.init none rfl⟩

/-! ## C6: `current_duration` (corrected) -/

/-- `_handle_active` keeps the open session's accumulated duration
nonnegative. -/
theorem handleActive_durNonneg (cfg : Config) (s : SMState) (a : Activity)
    (m : MatchResult)
    (h : ∀ sess, s.current_session = some sess → 0 ≤ sess.duration_seconds) :
    ∀ sess, (handleActive cfg s a m).current_session = some sess →
      0 ≤ sess.duration_seconds := by
  obtain ⟨cur, log⟩ := s
  intro sess hsess
  cases cur with
  | none =>
    simp only [handleActive] at hsess
    simp only [Option.some.injEq] at hsess
    subst hsess
    simp [openedSession]
  | some sess₀ =>
    have h₀ := h sess₀ rfl
    simp only [handleActive] at hsess
    by_cases hne : sess₀.project_id ≠ m.project_id
    · rw [if_pos hne] at hsess
      simp only [Option.some.injEq] at hsess
      subst hsess
      simp [openedSession]
    · rw [if_neg hne] at hsess
      simp only [Option.some.injEq] at hsess
      subst hsess
      cases hlt : sess₀.last_tracked_time with
      | none => simpa [hlt] using h₀
      | some t =>
        simp only [hlt]
        by_cases hd : a.timestamp - t > 0
        · rw [if_pos hd]
          linarith
        · rw [if_neg hd]
          exact h₀

/-- `_handle_inactive` keeps the open session's accumulated duration
nonnegative. -/
theorem handleInactive_durNonneg (cfg : Config) (s : SMState) (a : Activity)
    (h : ∀ sess, s.current_session = some sess → 0 ≤ sess.duration_seconds) :
    ∀ sess, (handleInactive cfg s a).current_session = some sess →
      0 ≤ sess.duration_seconds := by
  obtain ⟨cur, log⟩ := s
  intro sess hsess
  cases cur with
  | none => simp only [handleInactive] at hsess; exact absurd hsess (by simp)
  | some sess₀ =>
    have h₀ := h sess₀ rfl
    simp only [handleInactive] at hsess
    split at hsess <;> split at hsess <;>
      first
        | (have he : ({ sess₀ with last_tracked_time := none } : SessionState) = sess :=
             Option.some_inj.mp hsess
           subst he
           exact h₀)
        | simp at hsess

/-- Every operation keeps the open session's accumulated duration
nonnegative. -/
theorem step_durNonneg (cfg : Config) (projects : List ProjectRules)
    (s : SMState) (op : Op)
    (h : ∀ sess, s.current_session = some sess → 0 ≤ sess.duration_seconds) :
    ∀ sess, (step cfg projects s op).current_session = some sess →
      0 ≤ sess.duration_seconds := by
  cases op with
  | process a =>
    simp only [step, processActivity]
    cases hm : (if cfg.tracking_paused ≠ 0 then none else matchActivity projects a) with
    | none => exact handleInactive_durNonneg cfg s a h
    | some m => exact handleActive_durNonneg cfg s a m h
  | pauseOp e =>
    intro sess hsess
    obtain ⟨cur, log⟩ := s
    cases cur with
    | none => exact h sess hsess
    | some sess₀ => simp [step, pause] at hsess
  | shutdownOp n =>
    intro sess hsess
    obtain ⟨cur, log⟩ := s
    cases cur with
    | none => exact h sess hsess
    | some sess₀ =>
      have hc := endSession_current cfg ⟨some sess₀, log⟩ sess₀.last_active_time sess₀ rfl
      simp only [step, shutdown] at hsess
      rw [hc] at hsess
      exact absurd hsess (by simp)

/-- A run from the fresh state keeps the open session's accumulated
duration nonnegative. -/
theorem run_durNonneg (cfg : Config) (projects : List ProjectRules)
    (ops : List Op) :
    ∀ sess, (run cfg projects SMState.init ops).current_session = some sess →
      0 ≤ sess.duration_seconds := by
  suffices H : ∀ (s : SMState),
      (∀ sess, s.current_session = some sess → 0 ≤ sess.duration_seconds) →
      ∀ sess, (run cfg projects s ops).current_session = some sess →
        0 ≤ sess.duration_seconds by
    exact H SMState.init (by intro sess hs; simp [SMState.init] at hs)
  induction ops with
  | nil => intro s hs; exact hs
  | cons op ops ih =>
    intro s hs
    exact ih (step cfg projects s op) (step_durNonneg cfg projects s op hs)

/-- C6 as stated is false: when `now` precedes `last_tracked_time`, the
code clamps the negative delta to zero instead of adding it, so the result
is not `accumulated + (now - last_tracked_time)` rounded. -/
theorem currentDuration_counterexample :
    accruingState.current_session = some ⟨1, 0, "app: X", 10, 5, some 5⟩ ∧
    currentDuration accruingState 0 = some 10 ∧
    pyRound ((10 : ℚ) + (0 - 5)) = 5 ∧ (10 : ℤ) ≠ 5 := by
  have h10 : pyRound 10 = 10 := by norm_num [pyRound]
  have h5 : pyRound ((10 : ℚ) + (0 - 5)) = 5 := by norm_num [pyRound]
  refine ⟨rfl, ?_, h5, by decide⟩
  simp only [currentDuration, accruingState]
  norm_num [h10]

/-- C6 (amended): `current_duration(now)` is `None` iff no session is
open; with a session open and accruing it returns
`accumulated + max 0 (now - last_tracked_time)` rounded (a negative delta
is clamped to zero); and on every state reachable from a fresh manager the
returned value is nonnegative.  The call is a pure function of the state,
so it mutates nothing by construction. -/
theorem currentDuration_amended :
    (∀ (s : SMState) (now : ℚ),
       (currentDuration s now = none ↔ s.current_session = none)) ∧
    (∀ (s : SMState) (sess : SessionState) (t now : ℚ),
       s.current_session = some sess → sess.last_tracked_time = some t →
       currentDuration s now =
         some (pyRound (sess.duration_seconds + max 0 (now - t)))) ∧
    (∀ (cfg : Config) (projects : List ProjectRules) (ops : List Op)
       (now : ℚ) (k : ℤ),
       currentDuration (run cfg projects SMState.init ops) now = some k →
       0 ≤ k) := by
  refine ⟨fun s now => ?_, fun s sess t now hs ht => ?_, ?_⟩
  · cases hcs : s.current_session with
    | none => simp [currentDuration, hcs]
    | some sess => simp [currentDuration, hcs]
  · simp only [currentDuration, hs, ht]
    by_cases hd : now - t > 0
    · rw [if_pos hd, max_eq_right hd.le]
    · rw [if_neg hd]
      have : max 0 (now - t) = 0 := max_eq_left (by linarith)
      rw [this, add_zero]
  · intro cfg projects ops now k hk
    have hinv := run_durNonneg cfg projects ops
    cases hcs : (run cfg projects SMState.init ops).current_session with
    | none => simp [currentDuration, hcs] at hk
    | some sess =>
      have h₀ := hinv sess hcs
      simp only [currentDuration, hcs] at hk
      cases hlt : sess.last_tracked_time with
      | none =>
        simp only [hlt, Option.some.injEq] at hk
        exact hk ▸ pyRound_nonneg _ h₀
      | some t =>
        simp only [hlt] at hk
        by_cases hd : now - t > 0
        · rw [if_pos hd] at hk
          simp only [Option.some.injEq] at hk
          exact hk ▸ pyRound_nonneg _ (by linarith)
        · rw [if_neg hd] at hk
          simp only [Option.some.injEq] at hk
          exact hk ▸ pyRound_nonneg _ h₀

/-- Witness for C6 (amended): a concrete accruing session, the fresh
state, and a concrete one-sample run. -/
theorem currentDuration_amended_witness :
    currentDuration accruingState 7 = some (pyRound ((10 : ℚ) + max 0 (7 - 5))) ∧
    (currentDuration SMState.init 0 = none ↔ SMState.init.current_session = none) ∧
    (0 : ℤ) ≤ 12 := by
  refine ⟨currentDuration_amended.2.1 accruingState ⟨1, 0, "app: X", 10, 5, some 5⟩ 5 7 rfl rfl,
          currentDuration_amended.1 SMState.init 0,
          currentDuration_amended.2.2 keepAllConfig sampleProjects
            [Op.process (sampleActivity 0 false)] 12 12 ?_⟩
  have hm : (if keepAllConfig.tracking_paused ≠ 0 then none
             else matchActivity sampleProjects (sampleActivity 0 false)) =
      some ⟨1, "app_contains: Code"⟩ := by decide
  simp only [run, step, processActivity, hm]
  simp [handleActive, SMState.init, openedSession, currentDuration, sampleActivity]
  norm_num [pyRound]

/-! ## C4: project switch closes at `last_active_time` -/

/-- C4: when an open session's project differs from the newly matched
project, `process_activity` finalizes the old session at its own
`last_active_time` (not at the new sample's timestamp) and opens the new
session at the new sample's timestamp, so the gap between the two belongs
to neither session. -/
theorem processActivity_project_switch (cfg : Config)
    (projects : List ProjectRules) (s : SMState) (a : Activity)
    (sess : SessionState) (m : MatchResult)
    (hs : s.current_session = some sess)
    (hp : cfg.tracking_paused = 0)
    (hm : matchActivity projects a = some m)
    (hne : m.project_id ≠ sess.project_id) :
    processActivity cfg projects s a =
      { current_session := some ⟨m.project_id, a.timestamp, m.triggered_by, 0,
                                 a.timestamp, some a.timestamp⟩,
        log := s.log ++
          (if pyRound sess.duration_seconds < cfg.min_session_duration then []
           else [{ project_id := sess.project_id, start_time := sess.start_time,
                   end_time := sess.last_active_time,
                   duration := pyRound sess.duration_seconds,
                   triggered_by := sess.triggered_by }]) } := by
  have hne' : sess.project_id ≠ m.project_id := Ne.symm hne
  obtain ⟨cur, log⟩ := s
  have hcur : cur = some sess := hs
  subst hcur
  simp only [processActivity]
  rw [show (if cfg.tracking_paused ≠ 0 then none else matchActivity projects a) =
        some m by simp [hp, hm]]
  simp only [handleActive, if_pos hne', openedSession, endSession]
  split <;> simp

/-- Witness for C4: an open session for project 2 followed by a sample
matching project 1. -/
theorem processActivity_project_switch_witness :
    project2State.current_session = some ⟨2, 0, "app: Y", 7, 3, some 3⟩ ∧
    processActivity keepAllConfig sampleProjects project2State (sampleActivity 10 false) =
      { current_session := some ⟨1, 10, "app_contains: Code", 0, 10, some 10⟩,
        log := project2State.log ++
          (if pyRound (7 : ℚ) < keepAllConfig.min_session_duration then []
           else [{ project_id := 2, start_time := 0, end_time := 3,
                   duration := pyRound (7 : ℚ), triggered_by := "app: Y" }]) } :=
  ⟨rfl,
   processActivity_project_switch keepAllConfig sampleProjects project2State
     (sampleActivity 10 false) ⟨2, 0, "app: Y", 7, 3, some 3⟩
     ⟨1, "app_contains: Code"⟩ rfl rfl (by decide) (by decide)⟩

/-! ## C5: only sessions reaching `min_session_duration` are persisted -/

/-- Records appended by `_end_session` have a rounded duration of at least
`min_session_duration`. -/
theorem endSession_log_min (cfg : Config) (s : SMState) (e : ℚ) :
    ∀ r ∈ (endSession cfg s e).log,
      r ∈ s.log ∨ cfg.min_session_duration ≤ r.duration := by
  intro r hr
  rw [endSession_log] at hr
  rcases List.mem_append.mp hr with h | h
  · exact Or.inl h
  · cases hcs : s.current_session with
    | none => rw [hcs] at h; simp at h
    | some sess =>
      rw [hcs] at h
      have h' : r ∈ (if pyRound sess.duration_seconds < cfg.min_session_duration
          then ([] : List SessionRecord)
          else [{ project_id := sess.project_id, start_time := sess.start_time,
                  end_time := e, duration := pyRound sess.duration_seconds,
                  triggered_by := sess.triggered_by }]) := h
      by_cases hd : pyRound sess.duration_seconds < cfg.min_session_duration
      · rw [if_pos hd] at h'; simp at h'
      · rw [if_neg hd] at h'
        simp only [List.mem_singleton] at h'
        subst h'
        exact Or.inr (le_of_not_lt hd)

/-- Records appended by `_handle_active` have a rounded duration of at
least `min_session_duration`. -/
theorem handleActive_log_min (cfg : Config) (s : SMState) (a : Activity)
    (m : MatchResult) :
    ∀ r ∈ (handleActive cfg s a m).log,
      r ∈ s.log ∨ cfg.min_session_duration ≤ r.duration := by
  intro r hr
  obtain ⟨cur, log⟩ := s
  cases cur with
  | none => exact Or.inl hr
  | some sess =>
    simp only [handleActive] at hr
    split at hr
    · exact endSession_log_min cfg ⟨some sess, log⟩ sess.last_active_time r hr
    · exact Or.inl hr

/-- Records appended by `_handle_inactive` have a rounded duration of at
least `min_session_duration`. -/
theorem handleInactive_log_min (cfg : Config) (s : SMState) (a : Activity) :
    ∀ r ∈ (handleInactive cfg s a).log,
      r ∈ s.log ∨ cfg.min_session_duration ≤ r.duration := by
  intro r hr
  obtain ⟨cur, log⟩ := s
  cases cur with
  | none => exact Or.inl hr
  | some sess =>
    simp only [handleInactive] at hr
    split at hr <;> split at hr
    · exact endSession_log_min cfg _ _ r hr
    · exact Or.inl hr
    · exact endSession_log_min cfg _ _ r hr
    · exact Or.inl hr

/-- Every operation only appends records whose rounded duration reaches
`min_session_duration`. -/
theorem step_log_min (cfg : Config) (projects : List ProjectRules)
    (s : SMState) (op : Op) :
    ∀ r ∈ (step cfg projects s op).log,
      r ∈ s.log ∨ cfg.min_session_duration ≤ r.duration := by
  cases op with
  | process a =>
    simp only [step, processActivity]
    cases (if cfg.tracking_paused ≠ 0 then none else matchActivity projects a) with
    | none => exact handleInactive_log_min cfg s a
    | some m => exact handleActive_log_min cfg s a m
  | pauseOp e =>
    intro r hr
    obtain ⟨cur, log⟩ := s
    cases cur with
    | none => exact Or.inl hr
    | some sess =>
      simp only [step, pause] at hr
      exact endSession_log_min cfg _ _ r hr
  | shutdownOp n =>
    intro r hr
    obtain ⟨cur, log⟩ := s
    cases cur with
    | none => exact Or.inl hr
    | some sess =>
      simp only [step, shutdown] at hr
      exact endSession_log_min cfg _ _ r hr

/-- C5: on every run of a fresh manager, a session record is in the
persisted log only if its rounded duration is at least
`min_session_duration`; and `_end_session` on a session whose rounded
duration is below the threshold writes nothing, raises nothing, and clears
the open-session slot. -/
theorem session_log_respects_min_duration :
    (∀ (cfg : Config) (projects : List ProjectRules) (ops : List Op)
       (r : SessionRecord),
       r ∈ (run cfg projects SMState.init ops).log →
       cfg.min_session_duration ≤ r.duration) ∧
    (∀ (cfg : Config) (s : SMState) (sess : SessionState) (e : ℚ),
       s.current_session = some sess →
       pyRound sess.duration_seconds < cfg.min_session_duration →
       endSession cfg s e = { current_session := none, log := s.log }) := by
  constructor
  · suffices H : ∀ (cfg : Config) (projects : List ProjectRules) (ops : List Op)
        (s : SMState),
        (∀ r ∈ s.log, cfg.min_session_duration ≤ r.duration) →
        ∀ r ∈ (run cfg projects s ops).log, cfg.min_session_duration ≤ r.duration by
      intro cfg projects ops r hr
      exact H cfg projects ops SMState.init (by simp [SMState.init]) r hr
    intro cfg projects ops
    induction ops with
    | nil => intro s hs; exact hs
    | cons op ops ih =>
      intro s hs
      refine ih (step cfg projects s op) ?_
      intro r hr
      rcases step_log_min cfg projects s op r hr with h | h
      · exact hs r h
      · exact h
  · intro cfg s sess e hs hd
    obtain ⟨cur, log⟩ := s
    have hcur : cur = some sess := hs
    subst hcur
    simp [endSession, hd]

/-- Witness for C5: a concrete two-operation run that persists one record,
and a concrete below-threshold `_end_session` that is silently discarded. -/
theorem session_log_respects_min_duration_witness :
    keepAllConfig.min_session_duration ≤ (0 : ℤ) ∧
    endSession defaultConfig accruingState 99 =
      { current_session := none, log := accruingState.log } := by
  refine ⟨session_log_respects_min_duration.1 keepAllConfig sampleProjects
      [Op.process (sampleActivity 0 false), Op.pauseOp (some 5)]
      { project_id := 1, start_time := 0, end_time := 5, duration := 0,
        triggered_by := "app_contains: Code" } ?_,
    session_log_respects_min_duration.2 defaultConfig accruingState
      ⟨1, 0, "app: X", 10, 5, some 5⟩ 99 rfl (by norm_num [pyRound, defaultConfig])⟩
  have hm : (if keepAllConfig.tracking_paused ≠ 0 then none
             else matchActivity sampleProjects (sampleActivity 0 false)) =
      some ⟨1, "app_contains: Code"⟩ := by decide
  have h0 : pyRound 0 = 0 := by norm_num [pyRound]
  simp only [run, step, processActivity, hm]
  simp [handleActive, SMState.init, openedSession, pause, endSession, keepAllConfig, h0,
    sampleActivity]

/-! ## C1: case-insensitivity of `rule_matches` (corrected) -/

/-- Two optional strings with equal lower-casings are `None` together. -/
theorem norm_none_iff {x y : Option String} (h : normStr x = normStr y) :
    x = none ↔ y = none := by
  cases x <;> cases y <;> simp_all [normStr]

/-- `_contains` only depends on the lower-casing of the haystack. -/
theorem strContains_congr {x y : Option String} (h : normStr x = normStr y)
    (n : String) : strContains x n = strContains y n := by
  cases x <;> cases y <;> simp_all [normStr, strContains]

/-- `_prefix` only depends on the lower-casing of the haystack. -/
theorem strPrefix_congr {x y : Option String} (h : normStr x = normStr y)
    (n : String) : strPrefix x n = strPrefix y n := by
  cases x <;> cases y <;> simp_all [normStr, strPrefix]

/-- C1 as stated is false: `window_regex` (and `url_regex`) rules search
the raw field with the raw pattern, so changing the letter case of the
window title flips the result. -/
theorem rule_matches_case_counterexample :
    normStr upperTitleActivity.window_title = normStr lowerTitleActivity.window_title ∧
    rule_matches lowerTitleActivity lowerRegexRule = true ∧
    rule_matches upperTitleActivity lowerRegexRule = false := by
  decide

/-- C1 (amended): `rule_matches` is case-insensitive for every rule type
except `window_regex` and `url_regex` (whose pattern search is
case-sensitive), and for every one of the eight rule types it returns
false, without raising, when the Activity field the rule type reads is
absent. -/
theorem rule_matches_case_insensitive_amended :
    (∀ (a a' : Activity) (r : Rule),
       normStr a.app_name = normStr a'.app_name →
       normStr a.bundle_id = normStr a'.bundle_id →
       normStr a.window_title = normStr a'.window_title →
       normStr a.file_path = normStr a'.file_path →
       normStr a.url = normStr a'.url →
       r.rule_type ≠ "window_regex" → r.rule_type ≠ "url_regex" →
       rule_matches a r = rule_matches a' r) ∧
    (∀ (a : Activity) (r : Rule), r.rule_type = "app" →
       a.app_name = none → a.bundle_id = none → rule_matches a r = false) ∧
    (∀ (a : Activity) (r : Rule), r.rule_type = "app_contains" →
       a.app_name = none → rule_matches a r = false) ∧
    (∀ (a : Activity) (r : Rule),
       r.rule_type = "window_contains" ∨ r.rule_type = "window_regex" →
       a.window_title = none → rule_matches a r = false) ∧
    (∀ (a : Activity) (r : Rule),
       r.rule_type = "path_prefix" ∨ r.rule_type = "path_contains" →
       a.file_path = none → rule_matches a r = false) ∧
    (∀ (a : Activity) (r : Rule),
       r.rule_type = "url_contains" ∨ r.rule_type = "url_regex" →
       a.url = none → rule_matches a r = false) := by
  refine ⟨?_, ?_, ?_, ?_, ?_, ?_⟩
  · intro a a' r h1 h2 h3 h4 h5 hw hu
    by_cases t1 : r.rule_type = "app"
    · simp [rule_matches, t1, RULE_TYPES, h1, h2, norm_none_iff h1, norm_none_iff h2]
    · by_cases t2 : r.rule_type = "app_contains"
      · simp [rule_matches, t2, RULE_TYPES, strContains_congr h1]
      · by_cases t3 : r.rule_type = "window_contains"
        · simp [rule_matches, t3, RULE_TYPES, strContains_congr h3]
        · by_cases t5 : r.rule_type = "path_prefix"
          · simp [rule_matches, t5, RULE_TYPES, strPrefix_congr h4]
          · by_cases t6 : r.rule_type = "path_contains"
            · simp [rule_matches, t6, RULE_TYPES, strContains_congr h4]
            · by_cases t7 : r.rule_type = "url_contains"
              · simp [rule_matches, t7, RULE_TYPES, strContains_congr h5]
              · simp [rule_matches, RULE_TYPES, t1, t2, t3, hw, t5, t6, t7, hu]
  · intro a r ht h1 h2
    simp [rule_matches, ht, RULE_TYPES, h1, h2]
  · intro a r ht h1
    simp [rule_matches, ht, RULE_TYPES, h1, strContains]
  · intro a r ht h1
    rcases ht with ht | ht <;>
      simp [rule_matches, ht, RULE_TYPES, h1, strContains, regexSearch]
  · intro a r ht h1
    rcases ht with ht | ht <;>
      simp [rule_matches, ht, RULE_TYPES, h1, strContains, strPrefix]
  · intro a r ht h1
    rcases ht with ht | ht <;>
      simp [rule_matches, ht, RULE_TYPES, h1, strContains, regexSearch]

/-- Witness for C1 (amended): a `window_contains` rule on two activities
whose window titles differ only in case, and on an activity with no
window title. -/
theorem rule_matches_case_insensitive_amended_witness :
    rule_matches lowerTitleActivity ⟨1, 1, "window_contains", "CODE", 0, true⟩ =
      rule_matches upperTitleActivity ⟨1, 1, "window_contains", "CODE", 0, true⟩ ∧
    rule_matches emptyActivity ⟨1, 1, "window_contains", "CODE", 0, true⟩ = false :=
  ⟨rule_matches_case_insensitive_amended.1 lowerTitleActivity upperTitleActivity _
     (by decide) (by decide) (by decide) (by decide) (by decide) (by decide) (by decide),
   rule_matches_case_insensitive_amended.2.2.2.1 emptyActivity _ (Or.inl rfl) rfl⟩

/-! ## C3: the idle-grace scenario -/

/-- C3: with `idle_grace_period = 5` and `min_session_duration ≤ 2`, the
four-sample scenario (active at `t0`, active at `t0+2`, idle at `t0+4`,
idle at `t0+14`) persists exactly one record with `start_time = t0`,
`end_time = t0+2`, `duration = 2`, and leaves no session open. -/
theorem idle_grace_scenario (t0 : ℚ) (gs m : ℤ) (hm : m ≤ 2) :
    run (scenarioConfig gs m) sampleProjects SMState.init (scenarioOps t0) =
      { current_session := none,
        log := [{ project_id := 1, start_time := t0, end_time := t0 + 2,
                  duration := 2, triggered_by := "app_contains: Code" }] } := by
  have hmatch : ∀ t : ℚ,
      (if (scenarioConfig gs m).tracking_paused ≠ 0 then none
       else matchActivity sampleProjects (sampleActivity t false)) =
        some ⟨1, "app_contains: Code"⟩ := fun t => rfl
  have hidle : ∀ t : ℚ,
      (if (scenarioConfig gs m).tracking_paused ≠ 0 then none
       else matchActivity sampleProjects (sampleActivity t true)) =
        (none : Option MatchResult) := fun t => rfl
  have e1 : t0 + 2 - t0 = (2 : ℚ) := by ring
  have e2 : t0 + 4 - (t0 + 2) = (2 : ℚ) := by ring
  have e3 : t0 + 14 - (t0 + 2) = (12 : ℚ) := by ring
  have hr2 : pyRound 2 = 2 := by norm_num [pyRound]
  have hm' : ¬((2 : ℤ) < m) := not_lt.mpr hm
  have s1 : processActivity (scenarioConfig gs m) sampleProjects SMState.init
      (sampleActivity t0 false) =
      ⟨some ⟨1, t0, "app_contains: Code", 0, t0, some t0⟩, []⟩ := by
    simp only [processActivity]
    rw [hmatch t0]
    simp [handleActive, SMState.init, openedSession, sampleActivity]
  have s2 : processActivity (scenarioConfig gs m) sampleProjects
      ⟨some ⟨1, t0, "app_contains: Code", 0, t0, some t0⟩, []⟩
      (sampleActivity (t0 + 2) false) =
      ⟨some ⟨1, t0, "app_contains: Code", 2, t0 + 2, some (t0 + 2)⟩, []⟩ := by
    simp only [processActivity]
    rw [hmatch (t0 + 2)]
    simp [handleActive, openedSession, sampleActivity, e1]
  have s3 : processActivity (scenarioConfig gs m) sampleProjects
      ⟨some ⟨1, t0, "app_contains: Code", 2, t0 + 2, some (t0 + 2)⟩, []⟩
      (sampleActivity (t0 + 4) true) =
      ⟨some ⟨1, t0, "app_contains: Code", 2, t0 + 2, none⟩, []⟩ := by
    simp only [processActivity]
    rw [hidle (t0 + 4)]
    simp [handleInactive, sampleActivity, scenarioConfig, e2]
    norm_num
  have s4 : processActivity (scenarioConfig gs m) sampleProjects
      ⟨some ⟨1, t0, "app_contains: Code", 2, t0 + 2, none⟩, []⟩
      (sampleActivity (t0 + 14) true) =
      ⟨none, [{ project_id := 1, start_time := t0, end_time := t0 + 2,
                duration := 2, triggered_by := "app_contains: Code" }]⟩ := by
    simp only [processActivity]
    rw [hidle (t0 + 14)]
    simp [handleInactive, sampleActivity, scenarioConfig, e3, endSession, hr2, hm']
    norm_num
  show run (scenarioConfig gs m) sampleProjects SMState.init (scenarioOps t0) = _
  simp only [scenarioOps, run, step]
  rw [s1, s2, s3, s4]

/-- Witness for C3 at `t0 = 0`, `session_grace_period = 5`,
`min_session_duration = 0`. -/
theorem idle_grace_scenario_witness :
    (0 : ℤ) ≤ 2 ∧
    run (scenarioConfig 5 0) sampleProjects SMState.init (scenarioOps 0) =
      { current_session := none,
        log := [{ project_id := 1, start_time := 0, end_time := 0 + 2,
                  duration := 2, triggered_by := "app_contains: Code" }] } :=
  ⟨by decide, idle_grace_scenario 0 5 0 (by decide)⟩

/-! ## C2: `RuleEngine.match` equals the reference algorithm -/

/-- Sorting a list already sorted by the key leaves it unchanged. -/
theorem sortByKey_eq_self {α : Type} (key : α → ℤ) (l : List α)
    (hs : List.Chain' (fun a b => key a ≤ key b) l) :
    sortByKey key l = l := by
  induction l with
  | nil => rfl
  | cons x xs ih =>
    have hxs := ih (List.Chain'.tail hs)
    simp only [sortByKey, hxs]
    cases xs with
    | nil => rfl
    | cons y ys =>
      have hxy : key x ≤ key y := (List.chain'_cons.mp hs).1
      simp [insertByKey, hxy]

/-- C2: on a snapshot whose projects are in ascending project-id order (as
`reload` materializes them), `RuleEngine.match` returns exactly the result
of the spec's reference algorithm. -/
theorem engineMatch_eq_reference (projects : List ProjectRules) (a : Activity)
    (hs : List.Chain' (fun p q => p.id ≤ q.id) projects) :
    engineMatch projects a = refMatch projects a := by
  unfold refMatch engineMatch
  have hproj : refMatchProject a = matchProject a := rfl
  rw [hproj, sortByKey_eq_self ProjectRules.id projects hs]

/-- Witness for C2 on a concrete sorted two-project snapshot with an
ungrouped rule and a two-rule group. -/
theorem engineMatch_eq_reference_witness :
    List.Chain' (fun p q => ProjectRules.id p ≤ ProjectRules.id q)
      [⟨1, "Test", [⟨1, 1, "app_contains", "Code", 0, true⟩]⟩,
       ⟨2, "Web", [⟨2, 2, "app_contains", "Safari", 1, true⟩,
                   ⟨3, 2, "url_contains", "github", 1, true⟩]⟩] ∧
    engineMatch
      [⟨1, "Test", [⟨1, 1, "app_contains", "Code", 0, true⟩]⟩,
       ⟨2, "Web", [⟨2, 2, "app_contains", "Safari", 1, true⟩,
                   ⟨3, 2, "url_contains", "github", 1, true⟩]⟩]
      ⟨0, some "Safari", none, none, none, some "https://github.com", false⟩ =
    refMatch
      [⟨1, "Test", [⟨1, 1, "app_contains", "Code", 0, true⟩]⟩,
       ⟨2, "Web", [⟨2, 2, "app_contains", "Safari", 1, true⟩,
                   ⟨3, 2, "url_contains", "github", 1, true⟩]⟩]
      ⟨0, some "Safari", none, none, none, some "https://github.com", false⟩ :=
  ⟨by simp [List.chain'_cons],
   engineMatch_eq_reference _ ⟨0, some "Safari", none, none, none,
     some "https://github.com", false⟩ (by simp [List.chain'_cons])⟩

/-! ## C9: malformed regex rules never match and never block others -/

/-- A regex-typed rule whose pattern fails to compile never matches. -/
theorem rule_matches_invalid_regex (a : Activity) (r : Rule)
    (ht : r.rule_type = "window_regex" ∨ r.rule_type = "url_regex")
    (hc : reCompile r.rule_value = none) :
    rule_matches a r = false := by
  rcases ht with ht | ht
  · simp only [rule_matches, ht, RULE_TYPES]
    cases hw : a.window_title <;> simp [regexSearch, hc]
  · simp only [rule_matches, ht, RULE_TYPES]
    cases hw : a.url <;> simp [regexSearch, hc]

/-- `find?` is the head of the filtered list. -/
theorem find?_eq_head_filter {α : Type} (p : α → Bool) (l : List α) :
    l.find? p = (l.filter p).head? := by
  induction l with
  | nil => rfl
  | cons x xs ih =>
    cases hp : p x
    · rw [List.find?_cons_of_neg _ (by simp [hp]),
        List.filter_cons_of_neg (by simp [hp]), ih]
    · rw [List.find?_cons_of_pos _ hp, List.filter_cons_of_pos hp, List.head?_cons]

/-- Membership in an insertion. -/
theorem mem_insertByKey {α : Type} (key : α → ℤ) (x z : α) (l : List α) :
    z ∈ insertByKey key x l ↔ z = x ∨ z ∈ l := by
  induction l with
  | nil => simp [insertByKey]
  | cons y ys ih =>
    by_cases hxy : key x ≤ key y
    · simp [insertByKey, hxy]
    · simp [insertByKey, hxy, ih]
      tauto

/-- Inserting below every key is consing. -/
theorem insertByKey_eq_cons {α : Type} (key : α → ℤ) (x : α) (l : List α)
    (h : ∀ z ∈ l, key x ≤ key z) : insertByKey key x l = x :: l := by
  cases l with
  | nil => rfl
  | cons y ys => simp [insertByKey, h y (by simp)]

/-- Insertion preserves pairwise key-sortedness. -/
theorem pairwise_insertByKey {α : Type} (key : α → ℤ) (x : α) (l : List α)
    (h : l.Pairwise (fun a b => key a ≤ key b)) :
    (insertByKey key x l).Pairwise (fun a b => key a ≤ key b) := by
  induction l with
  | nil => simp [insertByKey]
  | cons y ys ih =>
    obtain ⟨hy, hys⟩ := List.pairwise_cons.mp h
    by_cases hxy : key x ≤ key y
    · rw [insertByKey, if_pos hxy]
      refine List.pairwise_cons.mpr ⟨?_, h⟩
      intro z hz
      rcases List.mem_cons.mp hz with rfl | hz
      · exact hxy
      · exact le_trans hxy (hy z hz)
    · rw [insertByKey, if_neg hxy]
      refine List.pairwise_cons.mpr ⟨?_, ih hys⟩
      intro z hz
      rcases (mem_insertByKey key x z ys).mp hz with rfl | hz
      · exact le_of_not_le hxy
      · exact hy z hz

/-- The stable sort is pairwise key-sorted. -/
theorem pairwise_sortByKey {α : Type} (key : α → ℤ) (l : List α) :
    (sortByKey key l).Pairwise (fun a b => key a ≤ key b) := by
  induction l with
  | nil => simp [sortByKey]
  | cons x xs ih => exact pairwise_insertByKey key x _ ih

/-- Filtering after a sorted insertion: the stable insertion commutes with
`filter` on key-sorted lists. -/
theorem filter_insertByKey {α : Type} (p : α → Bool) (key : α → ℤ) (x : α)
    (l : List α) (hl : l.Pairwise (fun a b => key a ≤ key b)) :
    (insertByKey key x l).filter p =
      if p x then insertByKey key x (l.filter p) else l.filter p := by
  induction l with
  | nil => cases hp : p x <;> simp [insertByKey, List.filter_cons, hp]
  | cons y ys ih =>
    obtain ⟨hy, hys⟩ := List.pairwise_cons.mp hl
    by_cases hxy : key x ≤ key y
    · rw [insertByKey, if_pos hxy]
      cases hp : p x
      · simp [List.filter_cons, hp]
      · cases hpy : p y
        · have hcons : insertByKey key x (List.filter p ys) = x :: List.filter p ys :=
            insertByKey_eq_cons key x _ fun z hz =>
              le_trans hxy (hy z (List.mem_of_mem_filter hz))
          simp [List.filter_cons, hp, hpy, hcons]
        · have hcons : insertByKey key x (y :: List.filter p ys) =
              x :: y :: List.filter p ys := by
            rw [insertByKey, if_pos hxy]
          simp [List.filter_cons, hp, hpy, hcons]
    · rw [insertByKey, if_neg hxy]
      cases hp : p x
      · cases hpy : p y <;>
          simp [List.filter_cons, hp, hpy, ih hys]
      · cases hpy : p y
        · simp [List.filter_cons, hp, hpy, ih hys]
        · have : insertByKey key x (y :: List.filter p ys) =
              y :: insertByKey key x (List.filter p ys) := by
            rw [insertByKey, if_neg hxy]
          simp [List.filter_cons, hp, hpy, ih hys, this]

/-- The stable sort commutes with `filter`. -/
theorem filter_sortByKey {α : Type} (p : α → Bool) (key : α → ℤ)
    (l : List α) :
    (sortByKey key l).filter p = sortByKey key (l.filter p) := by
  induction l with
  | nil => rfl
  | cons x xs ih =>
    rw [sortByKey, filter_insertByKey p key x _ (pairwise_sortByKey key xs)]
    cases hp : p x
    · simp [List.filter_cons, hp, ih]
    · simp [List.filter_cons, hp, ih, sortByKey]

/-- A never-matching element anywhere in the input is invisible to
`find?` after sorting. -/
theorem find?_sortByKey_erase_middle {α : Type} (p : α → Bool)
    (key : α → ℤ) (l1 l2 : List α) (x : α) (hx : p x = false) :
    (sortByKey key (l1 ++ x :: l2)).find? p =
      (sortByKey key (l1 ++ l2)).find? p := by
  rw [find?_eq_head_filter, find?_eq_head_filter, filter_sortByKey,
    filter_sortByKey]
  have : (l1 ++ x :: l2).filter p = (l1 ++ l2).filter p := by
    simp [List.filter_append, List.filter_cons, hx]
  rw [this]

/-- Erasing an ungrouped never-matching rule from a project does not
change the project's match result. -/
theorem matchProject_erase_invalid (a : Activity) (pid : ℤ) (pname : String)
    (rs1 rs2 : List Rule) (x : Rule)
    (hg : x.rule_group = 0) (hm : rule_matches a x = false) :
    matchProject a ⟨pid, pname, rs1 ++ x :: rs2⟩ =
      matchProject a ⟨pid, pname, rs1 ++ rs2⟩ := by
  simp only [matchProject]
  have hung : (rs1 ++ x :: rs2).filter (fun r => decide (r.rule_group = 0)) =
      rs1.filter (fun r => decide (r.rule_group = 0)) ++
        x :: rs2.filter (fun r => decide (r.rule_group = 0)) := by
    simp [List.filter_append, List.filter_cons, hg]
  have hgrp : (rs1 ++ x :: rs2).filter (fun r => decide (r.rule_group ≠ 0)) =
      (rs1 ++ rs2).filter (fun r => decide (r.rule_group ≠ 0)) := by
    simp [List.filter_append, List.filter_cons, hg]
  rw [hung, hgrp,
    find?_sortByKey_erase_middle (fun r => rule_matches a r) Rule.id _ _ x hm]
  simp only [List.filter_append]

/-- Prepending the same project to two match-equivalent snapshots keeps
them match-equivalent. -/
theorem engineMatch_cons_congr (q : ProjectRules) (l1 l2 : List ProjectRules)
    (a : Activity) (h : engineMatch l1 a = engineMatch l2 a) :
    engineMatch (q :: l1) a = engineMatch (q :: l2) a := by
  simp only [engineMatch] at h ⊢
  simp only [List.findSome?_cons]
  cases matchProject a q
  · exact h
  · rfl

/-- C9: a regex rule whose pattern fails to compile (with the relevant
field present) returns false from `rule_matches` without raising, and an
ungrouped malformed rule anywhere in a snapshot is transparent to
`RuleEngine.match`: every other rule and group is still evaluated exactly
as without it. -/
theorem invalid_regex_never_blocks :
    (∀ (a : Activity) (r : Rule),
       (r.rule_type = "window_regex" → a.window_title ≠ none) →
       (r.rule_type = "url_regex" → a.url ≠ none) →
       (r.rule_type = "window_regex" ∨ r.rule_type = "url_regex") →
       reCompile r.rule_value = none →
       rule_matches a r = false) ∧
    (∀ (pre post : List ProjectRules) (pid : ℤ) (pname : String)
       (rs1 rs2 : List Rule) (x : Rule) (a : Activity),
       x.rule_group = 0 →
       (x.rule_type = "window_regex" ∨ x.rule_type = "url_regex") →
       reCompile x.rule_value = none →
       engineMatch (pre ++ ⟨pid, pname, rs1 ++ x :: rs2⟩ :: post) a =
         engineMatch (pre ++ ⟨pid, pname, rs1 ++ rs2⟩ :: post) a) := by
  constructor
  · intro a r _ _ ht hc
    exact rule_matches_invalid_regex a r ht hc
  · intro pre post pid pname rs1 rs2 x a hg ht hc
    have hm : rule_matches a x = false := rule_matches_invalid_regex a x ht hc
    induction pre with
    | nil =>
      simp only [List.nil_append, engineMatch, List.findSome?_cons]
      rw [matchProject_erase_invalid a pid pname rs1 rs2 x hg hm]
    | cons q pre ih =>
      simp only [List.cons_append]
      exact engineMatch_cons_congr q _ _ a ih

/-- Witness for C9: the invalid pattern `(` in a `window_regex` rule,
which never matches and does not stop the later `window_contains` rule
from matching. -/
theorem invalid_regex_never_blocks_witness :
    rule_matches lowerTitleActivity ⟨1, 1, "window_regex", "(", 0, true⟩ = false ∧
    engineMatch [⟨1, "Test", [⟨1, 1, "window_regex", "(", 0, true⟩,
                              ⟨2, 1, "window_contains", "code", 0, true⟩]⟩]
        lowerTitleActivity =
      engineMatch [⟨1, "Test", [⟨2, 1, "window_contains", "code", 0, true⟩]⟩]
        lowerTitleActivity :=
  ⟨invalid_regex_never_blocks.1 lowerTitleActivity
     ⟨1, 1, "window_regex", "(", 0, true⟩ (by decide) (by decide)
     (Or.inl rfl) (by decide),
   invalid_regex_never_blocks.2 [] [] 1 "Test" []
     [⟨2, 1, "window_contains", "code", 0, true⟩]
     ⟨1, 1, "window_regex", "(", 0, true⟩ lowerTitleActivity
     rfl (Or.inl rfl) (by decide)⟩
